import Mathlib

/-!
Verification development for the Resilience & Poll-Lifecycle Core of a
Discord poll bot. Each definition is a shallow embedding of the
corresponding JavaScript function; machine time is modelled as `Nat`
milliseconds, external effects (platform fetches, AI generation, random
draws) as explicit function or data parameters, and JS `undefined`/thrown
errors as `Option`/flags. Sending a message to a channel is modelled as an
always-succeeding effect recorded in the output.
-/

namespace PollBot

/-! ## Resilience primitive (serviceHelpers: `callWithRetries`)

Constants from the source: failure threshold 5 within a 2-minute rolling
window; 2-minute cool-down; per-key queue capacity 5; 3-minute job TTL. -/

def CIRCUIT_FAILURE_THRESHOLD : Nat := 5

def CIRCUIT_WINDOW_MS : Nat := 2 * 60 * 1000

def CIRCUIT_OPEN_MS : Nat := 2 * 60 * 1000

def QUEUE_MAX_PER_KEY : Nat := 5

def QUEUE_TTL_MS : Nat := 3 * 60 * 1000

/-- Circuit-breaker state for one service key: recent failure timestamps and
the instant until which the breaker is open (`{ failures: [], openUntil: 0 }`
when fresh). -/
structure Breaker where
  failures : List Nat
  openUntil : Nat
deriving Repr, DecidableEq

/-- What one attempt of the wrapped operation does: succeed with data, or
throw an error classified by `isRetryableError` as retryable or not.
A timeout is a retryable error, so it needs no separate constructor. -/
inductive AttemptOut (α : Type) where
  | ok (data : α)
  | err (retryable : Bool)
deriving Repr, DecidableEq

/-- The `RetryOutcome` currency: `{status:'success'}`, `{status:'error',
permanent}` or `{status:'circuit_open'}`. -/
inductive RetryResult (α : Type) where
  | success (data : α)
  | error (permanent : Bool)
  | circuitOpen
deriving Repr, DecidableEq

/-- One failure-recording step of `callWithRetries`: push `now`, prune
timestamps outside the rolling window (`now - ts < CIRCUIT_WINDOW_MS`). -/
def recordFailure (failures : List Nat) (now : Nat) : List Nat :=
  (failures ++ [now]).filter (fun ts => now - ts < CIRCUIT_WINDOW_MS)

/-- The retry loop of `callWithRetries` (`for attempt = 1..maxAttempts`).
`op k` is the outcome of the k-th invocation of `fn` (wrapped in its
timeout); `failTime k` is `Date.now()` when the k-th attempt's retryable
failure is recorded. `fuel` starts at `maxAttempts`; `none` models the
JS function falling off the loop (unreachable for `maxAttempts ≥ 1`).
Returns the outcome, the final breaker state, and how many times the
underlying operation was invoked. -/
def retryLoop {α : Type} (op : Nat → AttemptOut α) (failTime : Nat → Nat)
    (maxAttempts : Nat) : Nat → Nat → Breaker →
    Option (RetryResult α × Breaker × Nat)
  | 0, _, _ => none
  | fuel + 1, attempt, b =>
    match op attempt with
    | .ok d => some (.success d, { b with failures := [] }, 1)
    | .err retryable =>
      if retryable = false then some (.error true, b, 1)
      else if attempt = maxAttempts then some (.error false, b, 1)
      else
        let now := failTime attempt
        let fs := recordFailure b.failures now
        if CIRCUIT_FAILURE_THRESHOLD ≤ fs.length then
          some (.circuitOpen, { failures := fs, openUntil := now + CIRCUIT_OPEN_MS }, 1)
        else
          match retryLoop op failTime maxAttempts fuel (attempt + 1) { b with failures := fs } with
          | none => none
          | some (res, b2, n) => some (res, b2, n + 1)

/-- `callWithRetries` for one service key: fast-fail with `circuit_open`
(and zero invocations of the operation) while `Date.now() < openUntil`,
otherwise run the retry loop. `now0` is `Date.now()` at the breaker
check. -/
def callWithRetries {α : Type} (op : Nat → AttemptOut α) (failTime : Nat → Nat)
    (maxAttempts : Nat) (now0 : Nat) (b : Breaker) :
    Option (RetryResult α × Breaker × Nat) :=
  if now0 < b.openUntil then some (.circuitOpen, b, 0)
  else retryLoop op failTime maxAttempts maxAttempts 1 b

/-! ## Deferred request queue (serviceHelpers: `enqueueConvRequest`,
`processConvQueue`)

`convQueue` is a JS `Map` from requester key (`channelId-userId`) to a
FIFO list of jobs; modelled as an insertion-ordered association list. -/

/-- A queued conversational job, as built by `enqueueConvRequest`. -/
structure ConvJob where
  messageId : String
  channelId : String
  guildId : String
  authorId : String
  cleanContent : String
  systemInstruction : String
  timestamp : Nat
  isReplyToBot : Bool
deriving Repr, DecidableEq

/-- The `convQueue` map, insertion-ordered like a JS `Map`. -/
abbrev ConvQueue := List (String × List ConvJob)

/-- `Map.get`: value at the key, `none` when absent (a `Map` holds each
key at most once, so the first match is the match). -/
def mapGet : ConvQueue → String → Option (List ConvJob)
  | [], _ => none
  | p :: rest, k => if p.1 = k then some p.2 else mapGet rest k

/-- `Map.set`: replace the value in place when the key exists, append the
new entry otherwise. -/
def mapSet : ConvQueue → String → List ConvJob → ConvQueue
  | [], k, v => [(k, v)]
  | p :: rest, k, v => if p.1 = k then (k, v) :: rest else p :: mapSet rest k v

/-- `enqueueConvRequest`: build the requester key, create its queue when
absent, drop with `null` when the queue already holds
`QUEUE_MAX_PER_KEY` jobs, otherwise push the job and return the new
length (the 1-based position). -/
def enqueueConvRequest (q : ConvQueue) (job : ConvJob) :
    Option Nat × ConvQueue :=
  let key := job.channelId ++ "-" ++ job.authorId
  let q1 := if mapGet q key = none then mapSet q key [] else q
  let userQueue := (mapGet q1 key).getD []
  if QUEUE_MAX_PER_KEY ≤ userQueue.length then
    (none, q1)
  else
    (some (userQueue.length + 1), mapSet q1 key (userQueue ++ [job]))

/-- Whether a job is still fresh at `now`: `now - job.timestamp <
QUEUE_TTL_MS` (Nat subtraction mirrors the JS comparison for future
timestamps too: both classify them as fresh). -/
def jobFresh (now : Nat) (job : ConvJob) : Bool :=
  now - job.timestamp < QUEUE_TTL_MS

/-- The cleanup phase of `processConvQueue`: per key, keep the fresh jobs;
delete the key when none remain. -/
def purgeStale (now : Nat) (q : ConvQueue) : ConvQueue :=
  q.filterMap (fun p =>
    let filtered := p.2.filter (jobFresh now)
    if filtered.isEmpty then none else some (p.1, filtered))

/-- The selection phase of `processConvQueue`: take the first key, `shift`
its first job, delete the key when its queue becomes empty. Returns the
selected job (the one the worker then executes) and the remaining map. -/
def selectNext (q : ConvQueue) : Option (String × ConvJob) × ConvQueue :=
  match q with
  | [] => (none, [])
  | (k, userQueue) :: rest =>
    match userQueue with
    | [] => (none, rest)
    | job :: jobs =>
      (some (k, job), if jobs.isEmpty then rest else (k, jobs) :: rest)

/-- One tick of the queue worker, up to the point where the selected job's
operation is executed: purge stale jobs, then select at most one job. -/
def processConvQueue (now : Nat) (q : ConvQueue) :
    Option (String × ConvJob) × ConvQueue :=
  selectNext (purgeStale now q)

/-! ## Per-community poll state -/

/-- A poll record (`lastPollData` / `lastSuccessfulPoll` /
`activeOnDemandPoll` shape). `correctAnswerIndex` is an `Int`: it comes
from parsed AI JSON (schema type INTEGER) or from `correct_option - 1` in
the relink command. Absent JS properties are `none` / `false`. -/
structure PollData where
  question : String
  options : List String
  correctAnswerIndex : Int
  explanation : String
  type : String
  pollMessageId : Option String := none
  createdAt : Option String := none
  isFallback : Bool := false
deriving Repr, DecidableEq, Inhabited

/-- The in-memory per-guild state created by `getServerState`. The
leaderboard is a JS object, modelled as an insertion-ordered association
list from user id to score. -/
structure GuildState where
  leaderboard : List (String × Nat)
  lastPollData : Option PollData
  activeOnDemandPoll : Option PollData
  lastSuccessfulPoll : Option PollData
deriving Repr, DecidableEq, Inhabited

/-- `state.leaderboard[userId] || 0` (a JS object holds each key once). -/
def lbGet : List (String × Nat) → String → Nat
  | [], _ => 0
  | p :: rest, userId => if p.1 = userId then p.2 else lbGet rest userId

/-- JS object property write: update in place, or append a new key. -/
def lbSet : List (String × Nat) → String → Nat → List (String × Nat)
  | [], userId, v => [(userId, v)]
  | p :: rest, userId, v =>
    if p.1 = userId then (userId, v) :: rest else p :: lbSet rest userId v

/-- `state.leaderboard[userId] = (state.leaderboard[userId] || 0) + 1`. -/
def lbIncr (lb : List (String × Nat)) (userId : String) : List (String × Nat) :=
  lbSet lb userId (lbGet lb userId + 1)

/-- `winnerIds.forEach(userId => { ...(leaderboard increment)... })`. -/
def awardPoints (lb : List (String × Nat)) (winnerIds : List String) :
    List (String × Nat) :=
  winnerIds.foldl lbIncr lb

/-- The static fallback pool (`FALLBACK_POLLS`), verbatim fields; the long
explanation texts are abridged to their opening words, which no claim
inspects. -/
def FALLBACK_POLLS : List PollData :=
  [ { question := "i lowk cant generate the poll today so go ahead:",
      options := ["wrong answer", "not right", "pick me right answer", "lebron"],
      correctAnswerIndex := 3,
      explanation := "right answer was c because... its obvious.",
      type := "trivia" },
    { question := "how many fours make up six sevens and two?",
      options := ["11", "67", "41", "7"],
      correctAnswerIndex := 1,
      explanation := "To solve this, first, calculate the value of six sevens and two.",
      type := "trivia" },
    { question := "ai?",
      options := ["not ai", "ai", "not artificial intelligence", "option 5"],
      correctAnswerIndex := 2,
      explanation := "Neural Networks are computational models inspired by the human brain.",
      type := "trivia" } ]

/-! ## Platform world (external collaborator data)

A fetched message, its poll and the per-answer voter lists, as the data
the Discord client returns; a failed fetch (deleted message, missing
permission) is `none`. -/

/-- A voter as returned by `voters.fetch()`. -/
structure UserRec where
  id : String
  username : String
  bot : Bool
deriving Repr, DecidableEq

/-- One poll answer on the live message; `voters = none` models a throwing
`voters.fetch()`. -/
structure PollAnswer where
  text : String
  voters : Option (List UserRec)
deriving Repr, DecidableEq

/-- The live poll attached to a message. -/
structure LivePoll where
  questionText : String
  answers : List PollAnswer
deriving Repr, DecidableEq

/-- A fetched message: `poll = none` when the message carries no poll. -/
structure LiveMessage where
  id : String
  poll : Option LivePoll
  createdAtIso : String
deriving Repr, DecidableEq

/-- JavaScript `Array.prototype.at`: a non-negative index reads directly,
a negative index reads from the end (`length + i`), out of range gives
`undefined`. -/
def atJS {α : Type} (l : List α) (i : Int) : Option α :=
  if 0 ≤ i then l.get? i.toNat
  else if (l.length : Int) + i < 0 then none
  else l.get? ((l.length : Int) + i).toNat

/-- The answer announcement embed sent by `resolveLastPoll`, reduced to the
fields the claims inspect. -/
structure AnswerAnnouncement where
  question : String
  correctAnswerIndex : Int
  correctCount : Nat
deriving Repr, DecidableEq

/-- The guard of `resolveLastPoll`: a `lastPollData` of type `"trivia"`
whose `pollMessageId` is truthy (present and non-empty). -/
def recordedTrivia (st : GuildState) : Option (PollData × String) :=
  match st.lastPollData with
  | none => none
  | some pd =>
    if pd.type = "trivia" then
      match pd.pollMessageId with
      | none => none
      | some mid => if mid = "" then none else some (pd, mid)
    else none

/-- `resolveLastPoll`. `fetch` is `channel.messages.fetch`; a `none`
anywhere in the fetched data takes the JS `return false` / caught-error
path. Returns the success flag, the updated state, the announcement sent
(if any), and the winner ids passed to `batchUpdateScoresInDB` (empty
when no DB write happens). -/
def resolveLastPoll (fetch : String → Option LiveMessage) (st : GuildState) :
    Bool × GuildState × Option AnswerAnnouncement × List String :=
  match recordedTrivia st with
  | none => (true, st, none, [])
  | some (pd, mid) =>
    match fetch mid with
    | none => (false, st, none, [])
    | some msg =>
      match msg.poll with
      | none => (false, st, none, [])
      | some livePoll =>
        match atJS livePoll.answers pd.correctAnswerIndex with
        | none => (false, st, none, [])
        | some correctAnswer =>
          match correctAnswer.voters with
          | none => (false, st, none, [])
          | some voters =>
            let winnerIds := (voters.filter (fun u => ¬ u.bot)).map (fun u => u.id)
            let st1 :=
              if winnerIds.length > 0 then
                { st with leaderboard := awardPoints st.leaderboard winnerIds }
              else st
            (true, st1,
             some { question := pd.question,
                    correctAnswerIndex := pd.correctAnswerIndex,
                    correctCount := winnerIds.length },
             winnerIds)

/-! ## Daily post (posting: `performDailyPost`, content selection and
persistence after the resolve step) -/

/-- The fallback/selection step of `performDailyPost`: on a non-success
generation outcome use the cached `lastSuccessfulPoll` when it exists with
type `"trivia"`, else a random entry of the static pool
(`FALLBACK_POLLS[Math.floor(Math.random() * FALLBACK_POLLS.length)]`,
modelled by `rand % FALLBACK_POLLS.length`); either way spread in
`isFallback: true`. Returns the chosen record and the `usedFallback`
flag. -/
def selectDailyPoll (lastSuccessfulPoll : Option PollData)
    (genResult : RetryResult PollData) (rand : Nat) : PollData × Bool :=
  match genResult with
  | .success d => (d, false)
  | _ =>
    let staticPick :=
      { FALLBACK_POLLS.getD (rand % FALLBACK_POLLS.length) default with
          isFallback := true }
    match lastSuccessfulPoll with
    | some lastPoll =>
      if lastPoll.type = "trivia" then ({ lastPoll with isFallback := true }, true)
      else (staticPick, true)
    | none => (staticPick, true)

/-- What `performDailyPost` posts and persists after selecting content. -/
structure DailyPostEffects where
  posted : PollData
  savedLastPollData : PollData
  savedLastSuccessfulPoll : Option PollData
  savedHistoryQuestion : Option String
  usedFallback : Bool
deriving Repr, DecidableEq

/-- The body of `performDailyPost` from the generation result on: select
content, force `type := "trivia"`, send the poll (its message id is
`newMsgId`), stamp `pollMessageId`/`createdAt`, store the record as the
in-memory `lastPollData`, persist it, and only for non-fallback results
also persist it as `lastSuccessfulPoll` and append its question to the
history. The in-memory `lastSuccessfulPoll` cache is not touched (the
source only writes it through `loadStateForGuild`). -/
def performDailyPostCore (st : GuildState) (genResult : RetryResult PollData)
    (rand : Nat) (newMsgId : String) (nowIso : String) :
    GuildState × DailyPostEffects :=
  let sel := selectDailyPoll st.lastSuccessfulPoll genResult rand
  let newPollData :=
    { sel.1 with type := "trivia", pollMessageId := some newMsgId,
                 createdAt := some nowIso }
  ({ st with lastPollData := some newPollData },
   { posted := newPollData,
     savedLastPollData := newPollData,
     savedLastSuccessfulPoll := if sel.2 then none else some newPollData,
     savedHistoryQuestion := if sel.2 then none else some newPollData.question,
     usedFallback := sel.2 })

/-! ## Admin handlers (`/relinkpoll`, `/resolve`) -/

/-- Result of `handleRelinkpoll`: the state after the command, whether the
relink succeeded, and the record written to the durable store (the
`saveStateToDB(guildId, 'lastPollData', ...)` call), if any. -/
structure RelinkResult where
  state : GuildState
  success : Bool
  savedLastPollData : Option PollData
deriving Repr, DecidableEq

/-- `handleRelinkpoll`: fetch the target message in the channel; reject
when it has no poll or `correct_option - 1` is at or past the answer
count; generate an explanation through the resilience primitive (`none`
models a failed generation, which aborts); otherwise overwrite
`lastPollData` in memory and in the store with the synthetic record. -/
def handleRelinkpoll (fetch : String → Option LiveMessage)
    (genExplanation : Option String) (st : GuildState)
    (messageId : String) (correctOptionNumber : Int) : RelinkResult :=
  let correctAnswerIndex := correctOptionNumber - 1
  match fetch messageId with
  | none => ⟨st, false, none⟩
  | some pollMessage =>
    match pollMessage.poll with
    | none => ⟨st, false, none⟩
    | some livePoll =>
      if (livePoll.answers.length : Int) ≤ correctAnswerIndex then ⟨st, false, none⟩
      else
        match genExplanation with
        | none => ⟨st, false, none⟩
        | some explanation =>
          let newPollData : PollData :=
            { question := livePoll.questionText,
              options := livePoll.answers.map (fun a => a.text),
              correctAnswerIndex := correctAnswerIndex,
              explanation := explanation,
              type := "trivia",
              pollMessageId := some pollMessage.id,
              createdAt := some pollMessage.createdAtIso }
          ⟨{ st with lastPollData := some newPollData }, true, some newPollData⟩

/-- Result of `handleResolve`: the state after the command, and whether the
durable `lastPollData` row was deleted (`deleteStateFromDB`). -/
structure ResolveCmdResult where
  state : GuildState
  clearedFromDB : Bool
deriving Repr, DecidableEq

/-- `handleResolve` (force-resolve): no-op reply when no `lastPollData` is
in memory; otherwise run `resolveLastPoll` and, on success, clear
`lastPollData` in memory and delete it from the store. -/
def handleResolve (fetch : String → Option LiveMessage) (st : GuildState) :
    ResolveCmdResult :=
  match st.lastPollData with
  | none => ⟨st, false⟩
  | some _ =>
    let r := resolveLastPoll fetch st
    if r.1 then ⟨{ r.2.1 with lastPollData := none }, true⟩
    else ⟨r.2.1, false⟩

/-! ## Missed-schedule reconciliation (scheduling: `checkForMissedPolls`)

Real timezone arithmetic is outside the embedding: `nyDate` stands for
`getNYDateString` (New York calendar day of an instant) and `parse` for
`new Date(...)` (`none` = `isNaN`), both uninterpreted parameters. -/

/-- One configured channel at startup: its id, and the guild state reached
through `channels.fetch` + `loadStateForGuild` (`none` when the fetch
fails or the channel has no guild, which skips the channel). -/
structure ChannelCheck where
  channelId : String
  resolved : Option GuildState
deriving Repr

/-- The per-channel trigger condition: missing `lastPollData`, missing or
unparseable `createdAt`, or a New York calendar day different from
today's. -/
def missedPoll (parse : String → Option Nat) (nyDate : Nat → String)
    (now : Nat) (st : GuildState) : Bool :=
  match st.lastPollData with
  | none => true
  | some pd =>
    match pd.createdAt with
    | none => true
    | some s =>
      match parse s with
      | none => true
      | some t => ¬ nyDate t = nyDate now

/-- `checkForMissedPolls`: before the 6 AM hour in New York nothing is
checked; otherwise every resolvable configured channel whose state
satisfies `missedPoll` gets exactly one catch-up `performDailyPost`.
Returns the channel ids for which a catch-up run is triggered, in
order. -/
def checkForMissedPolls (currentHourNY : Nat) (parse : String → Option Nat)
    (nyDate : Nat → String) (now : Nat) (channels : List ChannelCheck) :
    List String :=
  if currentHourNY < 6 then []
  else
    channels.filterMap (fun c =>
      match c.resolved with
      | none => none
      | some st => if missedPoll parse nyDate now st then some c.channelId else none)

/-! ## The posting lock (posting: `postingLock` and the entry/exit of
`performDailyPost` for one channel)

Two invocations A and B of `performDailyPost` race on the same channel id.
The lock check and `postingLock.add` are synchronous consecutive
statements (no `await` between them), so together they are one atomic
step; the body and the `finally { postingLock.delete } ` are collapsed
into the finishing step. -/

/-- Where one invocation stands: not yet started, holding the lock and
working, returned early because the lock was held (`noop`), or finished
having posted. -/
inductive InvPhase where
  | idle
  | running
  | noop
  | posted
deriving Repr, DecidableEq

/-- The shared state of the race: whether the channel id is in
`postingLock`, each invocation's phase, and how many polls were posted. -/
structure LockSys where
  locked : Bool
  a : InvPhase
  b : InvPhase
  posts : Nat
deriving Repr, DecidableEq

/-- Which invocation moves. -/
inductive Inv where
  | A
  | B
deriving Repr, DecidableEq

def LockSys.phase (s : LockSys) : Inv → InvPhase
  | .A => s.a
  | .B => s.b

def LockSys.setPhase (s : LockSys) : Inv → InvPhase → LockSys
  | .A, p => { s with a := p }
  | .B, p => { s with b := p }

/-- The labelled steps: `start i` is the atomic lock check-and-acquire at
the top of `performDailyPost` (observing a held lock returns at once,
changing nothing else); `finish i` is the body plus the `finally`
release, posting one poll. -/
inductive LockStep : LockSys → LockSys → Prop where
  | startBlocked (s : LockSys) (i : Inv) :
      s.phase i = .idle → s.locked = true →
      LockStep s (s.setPhase i .noop)
  | startAcquire (s : LockSys) (i : Inv) :
      s.phase i = .idle → s.locked = false →
      LockStep s { s.setPhase i .running with locked := true }
  | finish (s : LockSys) (i : Inv) :
      s.phase i = .running →
      LockStep s { s.setPhase i .posted with
                    locked := false, posts := s.posts + 1 }

/-- Both invocations pending, lock free, nothing posted. -/
def lockInit : LockSys := ⟨false, .idle, .idle, 0⟩

/-- States reachable from `lockInit`. -/
def LockReachable (s : LockSys) : Prop :=
  Relation.ReflTransGen LockStep lockInit s

/-! ## Helper lemmas -/

theorem mapGet_mapSet_self (q : ConvQueue) (k : String) (v : List ConvJob) :
    mapGet (mapSet q k v) k = some v := by
  induction q with
  | nil => simp [mapGet, mapSet]
  | cons p rest ih =>
    by_cases h : p.1 = k <;> simp [mapGet, mapSet, h, ih]

/-! ## C3: queue capacity bound -/

/-- C3. For every requester key whose queue already holds the per-key
capacity (5) of jobs, `enqueueConvRequest` returns `null` and the queue
for that key does not grow (it stays at its current contents); for every
key below capacity — including an absent key, whose queue is created
empty — it appends the job and returns its 1-based position in that
key's queue. -/
theorem enqueueConvRequest_capacity (q : ConvQueue) (job : ConvJob) :
    (QUEUE_MAX_PER_KEY ≤
        ((mapGet q (job.channelId ++ "-" ++ job.authorId)).getD []).length →
      (enqueueConvRequest q job).1 = none ∧
      mapGet (enqueueConvRequest q job).2 (job.channelId ++ "-" ++ job.authorId) =
        some ((mapGet q (job.channelId ++ "-" ++ job.authorId)).getD [])) ∧
    (((mapGet q (job.channelId ++ "-" ++ job.authorId)).getD []).length <
        QUEUE_MAX_PER_KEY →
      (enqueueConvRequest q job).1 =
        some (((mapGet q (job.channelId ++ "-" ++ job.authorId)).getD []).length + 1) ∧
      mapGet (enqueueConvRequest q job).2 (job.channelId ++ "-" ++ job.authorId) =
        some ((mapGet q (job.channelId ++ "-" ++ job.authorId)).getD [] ++ [job])) := by
  rcases h : mapGet q (job.channelId ++ "-" ++ job.authorId) with _ | uq
  · constructor
    · intro hfull
      simp [QUEUE_MAX_PER_KEY] at hfull
    · intro _
      simp [enqueueConvRequest, h, mapGet_mapSet_self, QUEUE_MAX_PER_KEY]
  · constructor
    · intro hfull
      simp only [Option.getD_some] at hfull
      simp [enqueueConvRequest, h, hfull]
    · intro hlt
      simp only [Option.getD_some] at hlt
      simp [enqueueConvRequest, h, Nat.not_le.mpr hlt, mapGet_mapSet_self]

/-- Concrete jobs and queues used by the witnesses. -/
def tJob : ConvJob :=
  { messageId := "m1", channelId := "c", guildId := "g", authorId := "u",
    cleanContent := "hello", systemInstruction := "sys", timestamp := 1000,
    isReplyToBot := false }

def tFullQueue : ConvQueue := [("c-u", [tJob, tJob, tJob, tJob, tJob])]

/-- Witness for C3: on an empty map the enqueue returns position 1; on a
key already holding 5 jobs it returns `none` and the queue stays at 5. -/
theorem enqueueConvRequest_capacity_witness :
    (enqueueConvRequest [] tJob).1 = some 1 ∧
    (enqueueConvRequest tFullQueue tJob).1 = none ∧
    mapGet (enqueueConvRequest tFullQueue tJob).2 "c-u" =
      some [tJob, tJob, tJob, tJob, tJob] := by
  refine ⟨((enqueueConvRequest_capacity [] tJob).2 (by decide)).1, ?_, ?_⟩
  · exact ((enqueueConvRequest_capacity tFullQueue tJob).1 (by decide)).1
  · exact ((enqueueConvRequest_capacity tFullQueue tJob).1 (by decide)).2

/-! ## C4: TTL purge without execution -/

theorem purgeStale_mem {now : Nat} {q : ConvQueue} {k : String}
    {js : List ConvJob} (h : (k, js) ∈ purgeStale now q) :
    js ≠ [] ∧ ∀ j ∈ js, jobFresh now j = true := by
  unfold purgeStale at h
  rcases List.mem_filterMap.mp h with ⟨p, _, hf⟩
  by_cases he : (p.2.filter (jobFresh now)).isEmpty
  · simp [he] at hf
  · simp only [he, if_false, Option.some.injEq, Prod.mk.injEq] at hf
    obtain ⟨-, rfl⟩ := hf
    constructor
    · intro hnil
      exact he (by simp [hnil])
    · intro j hj
      exact (List.mem_filter.mp hj).2

/-- C4. A job older than the TTL that is still queued when the worker
ticks is removed by `processConvQueue` without being selected for
execution (the selected job is always fresh), and every key whose queue
becomes empty is removed from the map (every surviving entry is
non-empty). -/
theorem processConvQueue_ttl (now : Nat) (q : ConvQueue) :
    (∀ k j, (processConvQueue now q).1 = some (k, j) → jobFresh now j = true) ∧
    (∀ j, jobFresh now j = false →
      ∀ k js, (k, js) ∈ (processConvQueue now q).2 → j ∉ js) ∧
    (∀ k js, (k, js) ∈ (processConvQueue now q).2 → js ≠ []) := by
  unfold processConvQueue
  rcases hP : purgeStale now q with _ | ⟨⟨k0, uq⟩, rest⟩
  · simp [selectNext]
  · have hhead : uq ≠ [] ∧ ∀ j ∈ uq, jobFresh now j = true :=
      purgeStale_mem (by rw [hP]; exact List.mem_cons_self _ _)
    have htail : ∀ k js, (k, js) ∈ rest → js ≠ [] ∧ ∀ j ∈ js, jobFresh now j = true := by
      intro k js hm
      exact purgeStale_mem (by rw [hP]; exact List.mem_cons_of_mem _ hm)
    rcases huq : uq with _ | ⟨j0, js0⟩
    · exact absurd huq hhead.1
    subst huq
    simp only [selectNext]
    refine ⟨?_, ?_, ?_⟩
    · intro k j hsel
      simp only [Option.some.injEq, Prod.mk.injEq] at hsel
      exact hsel.2 ▸ hhead.2 j0 (List.mem_cons_self _ _)
    · intro j hstale k js hm
      intro hj
      have hfresh : jobFresh now j = true := by
        split at hm
        · exact (htail k js hm).2 j hj
        · rcases List.mem_cons.mp hm with heq | hmem
          · simp only [Prod.mk.injEq] at heq
            obtain ⟨-, rfl⟩ := heq
            exact hhead.2 j (List.mem_cons_of_mem _ hj)
          · exact (htail k js hmem).2 j hj
      rw [hstale] at hfresh
      exact Bool.false_ne_true hfresh
    · intro k js hm
      split at hm
      · exact (htail k js hm).1
      · rcases List.mem_cons.mp hm with heq | hmem
        · simp only [Prod.mk.injEq] at heq
          obtain ⟨-, rfl⟩ := heq
          rename_i hempty
          intro hnil
          rw [hnil] at hempty
          exact hempty rfl
        · exact (htail k js hmem).1

/-- Concrete jobs for the C4 witness: one stale, two fresh at tick time
200000 ms (TTL is 180000 ms). -/
def tStaleJob : ConvJob :=
  { messageId := "m0", channelId := "a", guildId := "g", authorId := "u",
    cleanContent := "old", systemInstruction := "sys", timestamp := 0,
    isReplyToBot := false }

def tFreshJob : ConvJob :=
  { messageId := "m2", channelId := "b", guildId := "g", authorId := "u",
    cleanContent := "new", systemInstruction := "sys", timestamp := 150000,
    isReplyToBot := false }

def tFreshJob2 : ConvJob :=
  { messageId := "m3", channelId := "b", guildId := "g", authorId := "u",
    cleanContent := "newer", systemInstruction := "sys", timestamp := 160000,
    isReplyToBot := false }

def tMixedQueue : ConvQueue :=
  [("a-u", [tStaleJob]), ("b-u", [tFreshJob, tFreshJob2])]

/-- Witness for C4 at a concrete queue: the stale key is purged whole, the
selected job is the fresh head of the surviving key, and the stale job is
in no surviving queue. -/
theorem processConvQueue_ttl_witness :
    jobFresh 200000 tFreshJob = true ∧
    tStaleJob ∉ [tFreshJob2] ∧ ([tFreshJob2] : List ConvJob) ≠ [] := by
  refine ⟨(processConvQueue_ttl 200000 tMixedQueue).1 "b-u" tFreshJob (by decide), ?_, ?_⟩
  · exact (processConvQueue_ttl 200000 tMixedQueue).2.1 tStaleJob (by decide)
      "b-u" [tFreshJob2] (by decide)
  · exact (processConvQueue_ttl 200000 tMixedQueue).2.2 "b-u" [tFreshJob2] (by decide)

/-! ## C7: resolution no-op success -/

/-- C7. For every community state with no `lastPollData` of type
`"trivia"` carrying a recorded (truthy) poll message id,
`resolveLastPoll` returns success (`true`) while changing no state — in
particular no leaderboard score — sending no message and issuing no
score write. -/
theorem resolveLastPoll_noop (fetch : String → Option LiveMessage)
    (st : GuildState) (h : recordedTrivia st = none) :
    resolveLastPoll fetch st = (true, st, none, []) := by
  unfold resolveLastPoll
  rw [h]

/-- A community state with no poll recorded at all. -/
def tEmptyState : GuildState :=
  { leaderboard := [("u", 3)], lastPollData := none,
    activeOnDemandPoll := none, lastSuccessfulPoll := none }

/-- Witness for C7 at a concrete state with an empty `lastPollData`. -/
theorem resolveLastPoll_noop_witness :
    resolveLastPoll (fun _ => none) tEmptyState = (true, tEmptyState, none, []) :=
  resolveLastPoll_noop (fun _ => none) tEmptyState (by decide)

/-! ## C10: resolution guard on inconsistent state (corrected)

The claim reads the `answers.at(...)` plus null check as guarding every
stored index that is "not a valid index" into the live answers. That is
false for negative stored indices: JavaScript `Array.prototype.at`
resolves an index in `[-length, -1]` to an element from the end, so a
stored `correctAnswerIndex` of `-1` (expressible, since the value comes
from parsed AI JSON whose schema only says INTEGER) resolves against the
last live answer and the function proceeds to award points and send the
announcement. The guard does hold for every index `at` cannot reach:
`index ≥ answers.length` or `index < -answers.length`. -/

theorem atJS_eq_none {α : Type} (l : List α) (i : Int) :
    atJS l i = none ↔ ((l.length : Int) ≤ i ∨ i + (l.length : Int) < 0) := by
  unfold atJS
  by_cases h0 : 0 ≤ i
  · rw [if_pos h0, List.get?_eq_none]
    constructor
    · intro hle
      left
      omega
    · intro hor
      rcases hor with hor | hor
      · omega
      · omega
  · rw [if_neg h0]
    by_cases hneg : (l.length : Int) + i < 0
    · simp only [hneg, if_true, true_iff]
      right
      omega
    · rw [if_neg hneg, List.get?_eq_none]
      constructor
      · intro hle
        exfalso
        omega
      · intro hor
        exfalso
        rcases hor with hor | hor <;> omega

/-- Counterexample state for C10: a stored trivia record whose
`correctAnswerIndex` is `-1`, not a valid index into the single-answer
live poll. -/
def tNegIdxState : GuildState :=
  { leaderboard := [],
    lastPollData := some
      { question := "q", options := ["a", "b"], correctAnswerIndex := -1,
        explanation := "e", type := "trivia", pollMessageId := some "m",
        createdAt := none },
    activeOnDemandPoll := none, lastSuccessfulPoll := none }

/-- A world in which message `"m"` exists, carries a one-answer poll, and
that answer has a single human voter. -/
def tOneAnswerFetch : String → Option LiveMessage := fun mid =>
  if mid = "m" then
    some { id := "m",
           poll := some { questionText := "q",
                          answers := [{ text := "a",
                                        voters := some [{ id := "u", username := "uu", bot := false }] }] },
           createdAtIso := "2024-01-01T00:00:00.000Z" }
  else none

/-- Counterexample for C10 as stated: the stored index `-1` is not a valid
index into the live answers (`0 ≤ i < 1` fails), yet `resolveLastPoll`
returns success, sends an announcement and awards a point — `answers.at`
wraps negative indices instead of yielding null. -/
theorem resolveLastPoll_negative_index_cex :
    (¬ (0 ≤ (-1 : Int) ∧ (-1 : Int) < 1)) ∧
    resolveLastPoll tOneAnswerFetch tNegIdxState =
      (true,
       { tNegIdxState with leaderboard := [("u", 1)] },
       some { question := "q", correctAnswerIndex := -1, correctCount := 1 },
       ["u"]) := by
  constructor
  · decide
  · decide

/-- C10 (amended). If the fetched message carries no poll, or the stored
`correctAnswerIndex` is outside the range `answers.at` can reach (at or
past the live answer count, or below minus the count), `resolveLastPoll`
returns `false` without sending any announcement, without modifying any
leaderboard score and without issuing a score write; the fetch failing
outright behaves the same way. -/
theorem resolveLastPoll_guarded (fetch : String → Option LiveMessage)
    (st : GuildState) (pd : PollData) (mid : String)
    (hrec : recordedTrivia st = some (pd, mid))
    (hbad : fetch mid = none ∨
      ∃ msg, fetch mid = some msg ∧
        (msg.poll = none ∨
          ∃ lp, msg.poll = some lp ∧
            ((lp.answers.length : Int) ≤ pd.correctAnswerIndex ∨
              pd.correctAnswerIndex + (lp.answers.length : Int) < 0))) :
    resolveLastPoll fetch st = (false, st, none, []) := by
  rcases hbad with hf | ⟨msg, hf, hbad⟩
  · simp [resolveLastPoll, hrec, hf]
  · rcases hbad with hp | ⟨lp, hp, hrange⟩
    · simp [resolveLastPoll, hrec, hf, hp]
    · simp [resolveLastPoll, hrec, hf, hp,
        (atJS_eq_none lp.answers pd.correctAnswerIndex).mpr hrange]

/-- A stored trivia record whose index 5 lies past the one live answer. -/
def tBigIdxState : GuildState :=
  { leaderboard := [],
    lastPollData := some
      { question := "q", options := ["a", "b"], correctAnswerIndex := 5,
        explanation := "e", type := "trivia", pollMessageId := some "m",
        createdAt := none },
    activeOnDemandPoll := none, lastSuccessfulPoll := none }

/-- Witness for the amended C10: stored index 5 against a one-answer live
poll fails resolution with no effect. -/
theorem resolveLastPoll_guarded_witness :
    resolveLastPoll tOneAnswerFetch tBigIdxState = (false, tBigIdxState, none, []) := by
  refine resolveLastPoll_guarded tOneAnswerFetch tBigIdxState
    { question := "q", options := ["a", "b"], correctAnswerIndex := 5,
      explanation := "e", type := "trivia", pollMessageId := some "m",
      createdAt := none } "m" (by decide) ?_
  right
  refine ⟨_, rfl, ?_⟩
  right
  exact ⟨_, rfl, by decide⟩

/-! ## C5: fallback priority -/

theorem fallback_getD_mem (n : Nat) :
    FALLBACK_POLLS.getD (n % FALLBACK_POLLS.length) default ∈ FALLBACK_POLLS := by
  have hl : FALLBACK_POLLS.length = 3 := rfl
  rw [hl]
  have h3 : n % 3 = 0 ∨ n % 3 = 1 ∨ n % 3 = 2 := by omega
  rcases h3 with h | h | h <;> rw [h] <;> simp [FALLBACK_POLLS, List.getD]

/-- Every record `performDailyPostCore` persists as `lastSuccessfulPoll`
has type `"trivia"` (the source stamps `type = 'trivia'` before saving),
so a stored `lastSuccessfulPoll`, when one exists, satisfies the
type-trivia hypothesis of the fallback-priority theorem. -/
theorem savedLastSuccessfulPoll_trivia (st : GuildState)
    (genResult : RetryResult PollData) (rand : Nat) (msgId nowIso : String)
    (p : PollData)
    (h : (performDailyPostCore st genResult rand msgId nowIso).2.savedLastSuccessfulPoll
        = some p) :
    p.type = "trivia" := by
  rcases genResult with d | perm | _
  · injection h with h3
    rw [← h3]
  · rcases hs : st.lastSuccessfulPoll with _ | lp
    · simp [performDailyPostCore, selectDailyPoll, hs] at h
    · by_cases ht : lp.type = "trivia" <;>
        simp [performDailyPostCore, selectDailyPoll, hs, ht] at h
  · rcases hs : st.lastSuccessfulPoll with _ | lp
    · simp [performDailyPostCore, selectDailyPoll, hs] at h
    · by_cases ht : lp.type = "trivia" <;>
        simp [performDailyPostCore, selectDailyPoll, hs, ht] at h

/-- C5. Whenever generation returns a non-success outcome the posted
record is tagged `isFallback = true`; it equals the stored non-fallback
type-trivia `lastSuccessfulPoll` in question, options, correct-answer
index and explanation when one exists, and otherwise is the
randomly-indexed entry of the fixed static pool. (Every
`lastSuccessfulPoll` this code stores has type `"trivia"`:
`savedLastSuccessfulPoll_trivia`.) -/
theorem fallback_priority (st : GuildState) (genResult : RetryResult PollData)
    (rand : Nat) (msgId nowIso : String)
    (hfail : ∀ d, genResult ≠ RetryResult.success d) :
    (performDailyPostCore st genResult rand msgId nowIso).2.posted.isFallback = true ∧
    (∀ lp, st.lastSuccessfulPoll = some lp → lp.type = "trivia" →
      lp.isFallback = false →
      (performDailyPostCore st genResult rand msgId nowIso).2.posted.question = lp.question ∧
      (performDailyPostCore st genResult rand msgId nowIso).2.posted.options = lp.options ∧
      (performDailyPostCore st genResult rand msgId nowIso).2.posted.correctAnswerIndex =
        lp.correctAnswerIndex ∧
      (performDailyPostCore st genResult rand msgId nowIso).2.posted.explanation =
        lp.explanation) ∧
    (st.lastSuccessfulPoll = none →
      FALLBACK_POLLS.getD (rand % FALLBACK_POLLS.length) default ∈ FALLBACK_POLLS ∧
      (performDailyPostCore st genResult rand msgId nowIso).2.posted.question =
        (FALLBACK_POLLS.getD (rand % FALLBACK_POLLS.length) default).question ∧
      (performDailyPostCore st genResult rand msgId nowIso).2.posted.options =
        (FALLBACK_POLLS.getD (rand % FALLBACK_POLLS.length) default).options ∧
      (performDailyPostCore st genResult rand msgId nowIso).2.posted.correctAnswerIndex =
        (FALLBACK_POLLS.getD (rand % FALLBACK_POLLS.length) default).correctAnswerIndex ∧
      (performDailyPostCore st genResult rand msgId nowIso).2.posted.explanation =
        (FALLBACK_POLLS.getD (rand % FALLBACK_POLLS.length) default).explanation) := by
  rcases genResult with d | perm | _
  · exact absurd rfl (hfail d)
  all_goals refine ⟨?_, ?_, ?_⟩
  all_goals first
    | (rcases hs : st.lastSuccessfulPoll with _ | lp
       · simp [performDailyPostCore, selectDailyPoll, hs]
       · by_cases ht : lp.type = "trivia" <;>
           simp [performDailyPostCore, selectDailyPoll, hs, ht])
    | (intro lp hs ht _
       simp [performDailyPostCore, selectDailyPoll, hs, ht])
    | (intro hs
       exact ⟨fallback_getD_mem rand,
         by simp [performDailyPostCore, selectDailyPoll, hs]⟩)

/-- A stored last successful AI poll used by the witnesses. -/
def tLastGood : PollData :=
  { question := "good q", options := ["x", "y", "z", "w"],
    correctAnswerIndex := 2, explanation := "because", type := "trivia" }

def tStateWithGood : GuildState :=
  { leaderboard := [], lastPollData := none, activeOnDemandPoll := none,
    lastSuccessfulPoll := some tLastGood }

/-- Witness for C5: with generation short-circuited by the breaker, the
state holding a good poll reposts it, and the empty state posts the
randomly-drawn static entry. -/
theorem fallback_priority_witness :
    ((performDailyPostCore tStateWithGood RetryResult.circuitOpen 0 "mid" "now").2.posted.question
        = "good q") ∧
    ((performDailyPostCore tEmptyState RetryResult.circuitOpen 7 "mid" "now").2.posted.question
        = (FALLBACK_POLLS.getD (7 % FALLBACK_POLLS.length) default).question) := by
  constructor
  · exact ((fallback_priority tStateWithGood RetryResult.circuitOpen 0 "mid" "now"
      (fun d h => RetryResult.noConfusion h)).2.1 tLastGood rfl rfl rfl).1
  · exact ((fallback_priority tEmptyState RetryResult.circuitOpen 7 "mid" "now"
      (fun d h => RetryResult.noConfusion h)).2.2 rfl).2.1

/-! ## C8: fallback never persisted as a future source -/

/-- C8. When `performDailyPost` posts a fallback poll, the record (tagged
`isFallback = true`) is persisted only as `lastPollData`: no
`lastSuccessfulPoll` write and no question-history append happen, and
the cached `lastSuccessfulPoll` is untouched. -/
theorem fallback_not_persisted (st : GuildState) (genResult : RetryResult PollData)
    (rand : Nat) (msgId nowIso : String)
    (hfail : ∀ d, genResult ≠ RetryResult.success d) :
    (performDailyPostCore st genResult rand msgId nowIso).2.usedFallback = true ∧
    (performDailyPostCore st genResult rand msgId nowIso).2.posted.isFallback = true ∧
    (performDailyPostCore st genResult rand msgId nowIso).2.savedLastPollData =
      (performDailyPostCore st genResult rand msgId nowIso).2.posted ∧
    (performDailyPostCore st genResult rand msgId nowIso).1.lastPollData =
      some (performDailyPostCore st genResult rand msgId nowIso).2.posted ∧
    (performDailyPostCore st genResult rand msgId nowIso).2.savedLastSuccessfulPoll = none ∧
    (performDailyPostCore st genResult rand msgId nowIso).2.savedHistoryQuestion = none ∧
    (performDailyPostCore st genResult rand msgId nowIso).1.lastSuccessfulPoll =
      st.lastSuccessfulPoll := by
  rcases genResult with d | perm | _
  · exact absurd rfl (hfail d)
  · rcases hs : st.lastSuccessfulPoll with _ | lp
    · simp [performDailyPostCore, selectDailyPoll, hs]
    · by_cases ht : lp.type = "trivia" <;>
        simp [performDailyPostCore, selectDailyPoll, hs, ht]
  · rcases hs : st.lastSuccessfulPoll with _ | lp
    · simp [performDailyPostCore, selectDailyPoll, hs]
    · by_cases ht : lp.type = "trivia" <;>
        simp [performDailyPostCore, selectDailyPoll, hs, ht]

/-- Witness for C8 at a concrete failed generation. -/
theorem fallback_not_persisted_witness :
    (performDailyPostCore tStateWithGood (RetryResult.error false) 1 "mid" "now").2.savedLastSuccessfulPoll
        = none ∧
    (performDailyPostCore tStateWithGood (RetryResult.error false) 1 "mid" "now").1.lastSuccessfulPoll
        = some tLastGood := by
  have h := fallback_not_persisted tStateWithGood (RetryResult.error false) 1 "mid" "now"
    (fun d hd => RetryResult.noConfusion hd)
  exact ⟨h.2.2.2.2.1, h.2.2.2.2.2.2⟩

/-! ## C6: missed-schedule reconciliation -/

/-- Whether one configured channel leads to a catch-up run: its fetch must
resolve and its state must satisfy the missed-poll condition. -/
def channelTriggers (parse : String → Option Nat) (nyDate : Nat → String)
    (now : Nat) (c : ChannelCheck) : Bool :=
  match c.resolved with
  | none => false
  | some st => missedPoll parse nyDate now st

/-- C6. Before the 6 AM hour in New York, `checkForMissedPolls` checks no
channel at all. At or past it, the number of catch-up daily posts
triggered for a channel id equals the number of configured entries with
that id that resolve and satisfy the missed-poll condition — so a channel
configured once gets exactly one catch-up run when its persisted
`lastPollData` is missing, has a missing or unparseable `createdAt`, or
one on a different New York calendar day, and none when the day matches
today's. -/
theorem checkForMissedPolls_spec (currentHourNY : Nat)
    (parse : String → Option Nat) (nyDate : Nat → String) (now : Nat)
    (channels : List ChannelCheck) :
    (currentHourNY < 6 →
      checkForMissedPolls currentHourNY parse nyDate now channels = []) ∧
    (6 ≤ currentHourNY → ∀ id,
      (checkForMissedPolls currentHourNY parse nyDate now channels).count id =
        (channels.filter (fun c =>
          channelTriggers parse nyDate now c && c.channelId == id)).length) ∧
    (∀ st : GuildState, missedPoll parse nyDate now st = true ↔
      (st.lastPollData = none ∨ ∃ pd, st.lastPollData = some pd ∧
        (pd.createdAt = none ∨ ∃ s, pd.createdAt = some s ∧
          (parse s = none ∨ ∃ t, parse s = some t ∧ ¬ nyDate t = nyDate now)))) := by
  refine ⟨fun h => by simp [checkForMissedPolls, h], fun h6 id => ?_, fun st => ?_⟩
  · rw [checkForMissedPolls, if_neg (Nat.not_lt.mpr h6)]
    induction channels with
    | nil => rfl
    | cons c rest ih =>
      rcases hr : c.resolved with _ | st
      · simpa [List.filterMap_cons, List.filter_cons, hr, channelTriggers] using ih
      · by_cases hm : missedPoll parse nyDate now st = true
        · simp only [List.filterMap_cons, List.filter_cons, hr, channelTriggers, hm,
            if_true, Bool.true_and, List.count_cons]
          by_cases hid : c.channelId == id <;> simp [hid, ih, channelTriggers]
        · simp only [Bool.not_eq_true] at hm
          simpa [List.filterMap_cons, List.filter_cons, hr, channelTriggers, hm] using ih
  · rcases hlp : st.lastPollData with _ | pd
    · simp [missedPoll, hlp]
    · rcases hca : pd.createdAt with _ | s
      · simp [missedPoll, hlp, hca]
      · rcases hp : parse s with _ | t
        · simp [missedPoll, hlp, hca, hp]
        · simp [missedPoll, hlp, hca, hp]

/-- Concrete scheduling world for the C6 witness: timestamps below 86400
fall on day one, later ones on day two; now is on day two. -/
def tParse : String → Option Nat := fun s =>
  if s = "yesterday" then some 0 else if s = "today" then some 90000 else none

def tNyDate : Nat → String := fun t => if t < 86400 then "day1" else "day2"

def tStateYesterday : GuildState :=
  { leaderboard := [], activeOnDemandPoll := none, lastSuccessfulPoll := none,
    lastPollData := some { question := "q", options := ["a"], correctAnswerIndex := 0,
                           explanation := "e", type := "trivia",
                           createdAt := some "yesterday" } }

def tStateToday : GuildState :=
  { leaderboard := [], activeOnDemandPoll := none, lastSuccessfulPoll := none,
    lastPollData := some { question := "q", options := ["a"], correctAnswerIndex := 0,
                           explanation := "e", type := "trivia",
                           createdAt := some "today" } }

def tChannels : List ChannelCheck :=
  [⟨"ch1", some tStateYesterday⟩, ⟨"ch2", some tStateToday⟩]

/-- Witness for C6: at 8 AM the yesterday-stamped channel is caught up
exactly once and the today-stamped channel not at all; at 5 AM nothing
runs. -/
theorem checkForMissedPolls_spec_witness :
    (checkForMissedPolls 8 tParse tNyDate 100000 tChannels).count "ch1" = 1 ∧
    (checkForMissedPolls 8 tParse tNyDate 100000 tChannels).count "ch2" = 0 ∧
    checkForMissedPolls 5 tParse tNyDate 100000 tChannels = [] := by
  have h := checkForMissedPolls_spec 8 tParse tNyDate 100000 tChannels
  refine ⟨?_, ?_, (checkForMissedPolls_spec 5 tParse tNyDate 100000 tChannels).1 (by decide)⟩
  · rw [h.2.1 (by decide) "ch1"]
    decide
  · rw [h.2.1 (by decide) "ch2"]
    decide

/-! ## C9: relink / force-resolve round trip -/

theorem atJS_mem {α : Type} (l : List α) (i : Int) (h0 : 0 ≤ i)
    (hl : i < (l.length : Int)) : ∃ a, atJS l i = some a ∧ a ∈ l := by
  unfold atJS
  rw [if_pos h0]
  have hn : i.toNat < l.length := by omega
  exact ⟨l.get ⟨i.toNat, hn⟩, List.get?_eq_get hn, List.get_mem l _ hn⟩

/-- C9. A successful relink (which overwrites `lastPollData` with a
synthetic type-trivia record pointing at the fetched message) followed
immediately by a force-resolve — same platform world: the fetch still
returns that message (whose id is the one fetched and non-empty, as
Discord snowflake ids are) and its voter lists are fetchable — leaves
`lastPollData` cleared in memory and deleted from the durable store. -/
theorem relink_then_resolve (fetch : String → Option LiveMessage)
    (genExpl : Option String) (st : GuildState) (messageId : String) (n : Int)
    (hn : 1 ≤ n)
    (hcons : ∀ msg, fetch messageId = some msg → msg.id = messageId)
    (hmid : ¬ messageId = "")
    (hvoters : ∀ msg lp, fetch messageId = some msg → msg.poll = some lp →
      ∀ a ∈ lp.answers, a.voters ≠ none)
    (hsucc : (handleRelinkpoll fetch genExpl st messageId n).success = true) :
    (handleResolve fetch (handleRelinkpoll fetch genExpl st messageId n).state).state.lastPollData
        = none ∧
    (handleResolve fetch (handleRelinkpoll fetch genExpl st messageId n).state).clearedFromDB
        = true := by
  rcases hf : fetch messageId with _ | msg
  · simp [handleRelinkpoll, hf] at hsucc
  rcases hp : msg.poll with _ | lp
  · simp [handleRelinkpoll, hf, hp] at hsucc
  by_cases hlen : (lp.answers.length : Int) ≤ n - 1
  · simp [handleRelinkpoll, hf, hp, hlen] at hsucc
  rcases genExpl with _ | expl
  · simp [handleRelinkpoll, hf, hp, hlen] at hsucc
  have hstate : (handleRelinkpoll fetch (some expl) st messageId n).state = { st with lastPollData := some ⟨lp.questionText, lp.answers.map (fun a => a.text), n - 1, expl, "trivia", some msg.id, some msg.createdAtIso, false⟩ } := by
    simp [handleRelinkpoll, hf, hp, hlen]
  rw [hstate]
  have hmsgid : msg.id = messageId := hcons msg hf
  obtain ⟨a, ha, hamem⟩ := atJS_mem lp.answers (n - 1) (by omega) (by omega)
  rcases hv : a.voters with _ | voters
  · exact absurd hv (hvoters msg lp hf hp a hamem)
  simp [handleResolve, resolveLastPoll, recordedTrivia, hmsgid, hmid, hf, hp, ha, hv]

/-- The live message the C9 witness relinks to: a two-answer poll whose
answers both have fetchable voter lists. -/
def tRelinkMsg : LiveMessage :=
  { id := "m",
    poll := some { questionText := "relinked q",
                   answers := [{ text := "a1", voters := some [] },
                               { text := "a2",
                                 voters := some [{ id := "u", username := "uu", bot := false }] }] },
    createdAtIso := "2024-01-02T00:00:00.000Z" }

def tRelinkFetch : String → Option LiveMessage := fun _ => some tRelinkMsg

/-- Witness for C9 at a concrete world: relink to option 2 of the live
poll, then force-resolve; `lastPollData` ends cleared in memory and
deleted from the store. -/
theorem relink_then_resolve_witness :
    (handleResolve tRelinkFetch
        (handleRelinkpoll tRelinkFetch (some "because") tEmptyState "m" 2).state).state.lastPollData
      = none ∧
    (handleResolve tRelinkFetch
        (handleRelinkpoll tRelinkFetch (some "because") tEmptyState "m" 2).state).clearedFromDB
      = true := by
  refine relink_then_resolve tRelinkFetch (some "because") tEmptyState "m" 2
    (by decide) ?_ (by decide) ?_ (by decide)
  · intro msg h
    injection h with h2
    rw [← h2]
    rfl
  · intro msg lp h1 h2 a ha
    injection h1 with e1
    rw [← e1] at h2
    injection h2 with e2
    rw [← e2] at ha
    rcases List.mem_cons.mp ha with rfl | ha
    · decide
    rcases List.mem_cons.mp ha with rfl | ha
    · decide
    cases ha

/-! ## C1: circuit breaker trip and fast-fail (corrected)

The claim counts every consecutive transient failure toward the trip
threshold. The source records a failure timestamp only when it is about
to retry — on `attempt === maxAttempts` it returns
`error(permanent=false)` **before** the recording block — so a final
attempt's transient failure is never counted. Five consecutive transient
failures therefore need not open the breaker (e.g. one call with
`maxAttempts = 5` records only four) and the next call still invokes the
operation. -/

/-- Counterexample to C1 as stated: five consecutive transient failures
within the window (one call, `maxAttempts = 5`, all at time 0) leave the
breaker closed (`openUntil = 0`, only 4 recorded failures), and the
immediately following call still invokes the underlying operation
(1 invocation) instead of returning `circuit_open`. -/
theorem callWithRetries_five_failures_cex :
    callWithRetries (α := Nat) (fun _ => .err true) (fun _ => 0) 5 0 ⟨[], 0⟩ =
      some (.error false, ⟨[0, 0, 0, 0], 0⟩, 5) ∧
    callWithRetries (α := Nat) (fun _ => .ok 7) (fun _ => 0) 4 0 ⟨[0, 0, 0, 0], 0⟩ =
      some (.success 7, ⟨[], 0⟩, 1) := by
  decide

theorem retryLoop_step {α : Type} (op : Nat → AttemptOut α) (ft : Nat → Nat)
    (ma fuel attempt : Nat) (b : Breaker)
    (h1 : op attempt = .err true) (h2 : attempt ≠ ma)
    (h3 : (recordFailure b.failures (ft attempt)).length < CIRCUIT_FAILURE_THRESHOLD) :
    retryLoop op ft ma (fuel + 1) attempt b =
      (retryLoop op ft ma fuel (attempt + 1)
          ⟨recordFailure b.failures (ft attempt), b.openUntil⟩).map
        (fun r => (r.1, r.2.1, r.2.2 + 1)) := by
  rcases b with ⟨fs, u⟩
  have h3' := Nat.not_le.mpr h3
  simp only [retryLoop, h1, h2, h3', if_false, ite_false, reduceIte]
  rcases hres : retryLoop op ft ma fuel (attempt + 1) ⟨recordFailure fs (ft attempt), u⟩
      with _ | ⟨res, b2, n2⟩ <;> simp [hres]

theorem retryLoop_trip {α : Type} (op : Nat → AttemptOut α) (ft : Nat → Nat)
    (ma fuel attempt : Nat) (b : Breaker)
    (h1 : op attempt = .err true) (h2 : attempt ≠ ma)
    (h3 : CIRCUIT_FAILURE_THRESHOLD ≤ (recordFailure b.failures (ft attempt)).length) :
    retryLoop op ft ma (fuel + 1) attempt b =
      some (.circuitOpen,
        ⟨recordFailure b.failures (ft attempt), ft attempt + CIRCUIT_OPEN_MS⟩, 1) := by
  rcases b with ⟨fs, u⟩
  simp only [retryLoop, h1, h2, h3, if_false, ite_false, if_true, ite_true, reduceIte]
  simp [h3]

/-- C1 (amended). The trip threshold counts recorded transient failures —
one is recorded only on a non-final attempt (`attempt < maxAttempts`).
Starting from a closed breaker with an empty failure history, five
consecutive recorded transient failures (all at time `t`, trivially
inside the rolling window) make the call return `circuit_open` with the
breaker open until `t + CIRCUIT_OPEN_MS`; and every call for that key
issued while `now < openUntil` returns `circuit_open` with zero
invocations of the underlying operation and an unchanged breaker. -/
theorem breaker_trip_and_fast_fail {α : Type} (op : Nat → AttemptOut α)
    (ft : Nat → Nat) (m t now0 : Nat) (b : Breaker)
    (hfail : ∀ k, 1 ≤ k → k ≤ 5 → op k = .err true)
    (htime : ∀ k, 1 ≤ k → k ≤ 5 → ft k = t)
    (hempty : b.failures = [])
    (hclosed : b.openUntil ≤ now0) :
    callWithRetries op ft (m + 6) now0 b =
      some (.circuitOpen, ⟨[t, t, t, t, t], t + CIRCUIT_OPEN_MS⟩, 5) ∧
    (∀ (β : Type) (op2 : Nat → AttemptOut β) (ft2 : Nat → Nat) (ma2 now2 : Nat),
      now2 < t + CIRCUIT_OPEN_MS →
      callWithRetries op2 ft2 ma2 now2 ⟨[t, t, t, t, t], t + CIRCUIT_OPEN_MS⟩ =
        some (.circuitOpen, ⟨[t, t, t, t, t], t + CIRCUIT_OPEN_MS⟩, 0)) := by
  rcases b with ⟨fs, u⟩
  simp only at hempty hclosed
  subst hempty
  have hr0 : recordFailure [] t = [t] := by
    simp [recordFailure, CIRCUIT_WINDOW_MS]
  have hr1 : recordFailure [t] t = [t, t] := by
    simp [recordFailure, CIRCUIT_WINDOW_MS]
  have hr2 : recordFailure [t, t] t = [t, t, t] := by
    simp [recordFailure, CIRCUIT_WINDOW_MS]
  have hr3 : recordFailure [t, t, t] t = [t, t, t, t] := by
    simp [recordFailure, CIRCUIT_WINDOW_MS]
  have hr4 : recordFailure [t, t, t, t] t = [t, t, t, t, t] := by
    simp [recordFailure, CIRCUIT_WINDOW_MS]
  have ht1 : ft 1 = t := htime 1 (by omega) (by omega)
  have ht2 : ft 2 = t := htime 2 (by omega) (by omega)
  have ht3 : ft 3 = t := htime 3 (by omega) (by omega)
  have ht4 : ft 4 = t := htime 4 (by omega) (by omega)
  have ht5 : ft 5 = t := htime 5 (by omega) (by omega)
  constructor
  · have E1 : retryLoop op ft (m + 6) (m + 6) 1 ⟨[], u⟩ =
        (retryLoop op ft (m + 6) (m + 5) 2 ⟨[t], u⟩).map
          (fun r => (r.1, r.2.1, r.2.2 + 1)) := by
      have e := retryLoop_step op ft (m + 6) (m + 5) 1 ⟨[], u⟩
        (hfail 1 (by omega) (by omega)) (by omega)
        (by dsimp only; rw [ht1, hr0]; simp [CIRCUIT_FAILURE_THRESHOLD])
      dsimp only at e
      rw [ht1, hr0] at e
      exact e
    have E2 : retryLoop op ft (m + 6) (m + 5) 2 ⟨[t], u⟩ =
        (retryLoop op ft (m + 6) (m + 4) 3 ⟨[t, t], u⟩).map
          (fun r => (r.1, r.2.1, r.2.2 + 1)) := by
      have e := retryLoop_step op ft (m + 6) (m + 4) 2 ⟨[t], u⟩
        (hfail 2 (by omega) (by omega)) (by omega)
        (by dsimp only; rw [ht2, hr1]; simp [CIRCUIT_FAILURE_THRESHOLD])
      dsimp only at e
      rw [ht2, hr1] at e
      exact e
    have E3 : retryLoop op ft (m + 6) (m + 4) 3 ⟨[t, t], u⟩ =
        (retryLoop op ft (m + 6) (m + 3) 4 ⟨[t, t, t], u⟩).map
          (fun r => (r.1, r.2.1, r.2.2 + 1)) := by
      have e := retryLoop_step op ft (m + 6) (m + 3) 3 ⟨[t, t], u⟩
        (hfail 3 (by omega) (by omega)) (by omega)
        (by dsimp only; rw [ht3, hr2]; simp [CIRCUIT_FAILURE_THRESHOLD])
      dsimp only at e
      rw [ht3, hr2] at e
      exact e
    have E4 : retryLoop op ft (m + 6) (m + 3) 4 ⟨[t, t, t], u⟩ =
        (retryLoop op ft (m + 6) (m + 2) 5 ⟨[t, t, t, t], u⟩).map
          (fun r => (r.1, r.2.1, r.2.2 + 1)) := by
      have e := retryLoop_step op ft (m + 6) (m + 2) 4 ⟨[t, t, t], u⟩
        (hfail 4 (by omega) (by omega)) (by omega)
        (by dsimp only; rw [ht4, hr3]; simp [CIRCUIT_FAILURE_THRESHOLD])
      dsimp only at e
      rw [ht4, hr3] at e
      exact e
    have E5 : retryLoop op ft (m + 6) (m + 2) 5 ⟨[t, t, t, t], u⟩ =
        some (.circuitOpen, ⟨[t, t, t, t, t], t + CIRCUIT_OPEN_MS⟩, 1) := by
      have e := retryLoop_trip op ft (m + 6) (m + 1) 5 ⟨[t, t, t, t], u⟩
        (hfail 5 (by omega) (by omega)) (by omega)
        (by dsimp only; rw [ht5, hr4]; simp [CIRCUIT_FAILURE_THRESHOLD])
      dsimp only at e
      rw [ht5, hr4] at e
      exact e
    unfold callWithRetries
    rw [if_neg (Nat.not_lt.mpr hclosed)]
    rw [E1, E2, E3, E4, E5]
    rfl
  · intro β op2 ft2 ma2 now2 h
    unfold callWithRetries
    rw [if_pos (show now2 < (⟨[t, t, t, t, t], t + CIRCUIT_OPEN_MS⟩ : Breaker).openUntil from h)]

/-- Witness for the amended C1: six-attempt call with every attempt
failing transiently at time 0 trips the breaker at the fifth recorded
failure and returns `circuit_open`; a later call at time 100 fast-fails
with zero invocations. -/
theorem breaker_trip_and_fast_fail_witness :
    callWithRetries (α := Nat) (fun _ => .err true) (fun _ => 0) 6 0 ⟨[], 0⟩ =
      some (.circuitOpen, ⟨[0, 0, 0, 0, 0], CIRCUIT_OPEN_MS⟩, 5) ∧
    callWithRetries (α := Nat) (fun _ => .ok 9) (fun _ => 0) 4 100
        ⟨[0, 0, 0, 0, 0], CIRCUIT_OPEN_MS⟩ =
      some (.circuitOpen, ⟨[0, 0, 0, 0, 0], CIRCUIT_OPEN_MS⟩, 0) := by
  have h := breaker_trip_and_fast_fail (α := Nat) (fun _ => .err true) (fun _ => 0)
    0 0 0 ⟨[], 0⟩ (fun k _ _ => rfl) (fun k _ _ => rfl) rfl (by decide)
  constructor
  · simpa using h.1
  · simpa using h.2 Nat (fun _ => .ok 9) (fun _ => 0) 4 100 (by decide)

/-! ## C2: daily-cycle mutual exclusion and idempotence -/

/-- The inductive invariant of the posting-lock system: the channel id is
in `postingLock` exactly while an invocation runs, never two run at once,
and the post count equals the number of finished (posted) invocations. -/
def lockInv (s : LockSys) : Prop :=
  (s.locked = true ↔ (s.a = .running ∨ s.b = .running)) ∧
  ¬ (s.a = .running ∧ s.b = .running) ∧
  s.posts = (if s.a = .posted then 1 else 0) + (if s.b = .posted then 1 else 0)

theorem lockInv_init : lockInv lockInit := by
  refine ⟨?_, ?_, rfl⟩ <;> simp [lockInit]

theorem lockInv_step {s s2 : LockSys} (h : LockStep s s2) (hi : lockInv s) :
    lockInv s2 := by
  rcases hi with ⟨hl, hmx, hp⟩
  cases h with
  | startBlocked i hip hil =>
    cases i <;> simp only [LockSys.phase] at hip <;>
      simp_all [lockInv, LockSys.setPhase]
  | startAcquire i hip hil =>
    cases i <;> simp only [LockSys.phase] at hip <;>
      simp_all [lockInv, LockSys.setPhase]
  | finish i hip =>
    cases i <;> simp only [LockSys.phase] at hip <;>
      simp_all [lockInv, LockSys.setPhase] <;> omega

theorem lockInv_reachable {s : LockSys} (h : LockReachable s) : lockInv s := by
  induction h with
  | refl => exact lockInv_init
  | tail _ hbc ih => exact lockInv_step hbc ih

/-- C2. In every reachable interleaving of two `performDailyPost`
invocations for the same channel: while the first invocation is running,
the only step the second can take is the lock-observing start, which
no-ops — phase `noop`, posts unchanged, lock and the other invocation
untouched; and a completed run in which the first posted and the second
no-oped has posted exactly one poll. -/
theorem performDailyPost_mutex :
    (∀ s s2 : LockSys, LockReachable s → s.a = .running →
      LockStep s s2 → s2.b ≠ s.b →
      s2.b = .noop ∧ s2.posts = s.posts ∧ s2.a = s.a ∧ s2.locked = s.locked) ∧
    (∀ s : LockSys, LockReachable s → s.a = .posted → s.b = .noop →
      s.posts = 1) := by
  constructor
  · intro s s2 hr ha hstep hbch
    have hi := lockInv_reachable hr
    cases hstep with
    | startBlocked i hip hil =>
      cases i
      · exact absurd rfl hbch
      · exact ⟨rfl, rfl, rfl, rfl⟩
    | startAcquire i hip hil =>
      cases i
      · exact absurd rfl hbch
      · exact absurd (hi.1.mpr (Or.inl ha)) (by simp [hil])
    | finish i hip =>
      cases i
      · exact absurd rfl hbch
      · exact absurd ⟨ha, hip⟩ hi.2.1
  · intro s hr ha hb
    have hi := lockInv_reachable hr
    rw [hi.2.2, ha, hb]
    simp

/-- Witness for C2: the concrete race in which A acquires the lock, B
starts while A is running and no-ops, and A finishes — exactly one poll
posted. -/
theorem performDailyPost_mutex_witness :
    LockSys.posts ⟨false, .posted, .noop, 1⟩ = 1 ∧
    LockSys.b ⟨true, .running, .noop, 0⟩ = .noop ∧
    LockSys.posts ⟨true, .running, .noop, 0⟩ =
      LockSys.posts ⟨true, .running, .idle, 0⟩ := by
  have r1 : LockReachable ⟨true, .running, .idle, 0⟩ :=
    Relation.ReflTransGen.single (LockStep.startAcquire lockInit .A rfl rfl)
  have step2 : LockStep ⟨true, .running, .idle, 0⟩ ⟨true, .running, .noop, 0⟩ :=
    LockStep.startBlocked ⟨true, .running, .idle, 0⟩ .B rfl rfl
  have r2 : LockReachable ⟨true, .running, .noop, 0⟩ :=
    Relation.ReflTransGen.tail r1 step2
  have r3 : LockReachable ⟨false, .posted, .noop, 1⟩ :=
    Relation.ReflTransGen.tail r2
      (LockStep.finish ⟨true, .running, .noop, 0⟩ .A rfl)
  refine ⟨performDailyPost_mutex.2 _ r3 rfl rfl, ?_, ?_⟩
  · exact (performDailyPost_mutex.1 _ _ r1 rfl step2 (by decide)).1
  · exact (performDailyPost_mutex.1 _ _ r1 rfl step2 (by decide)).2.1

end PollBot
